import Mathlib

/-!
Verification development for `sn2ssg.py`: a shallow embedding of the
note-stream parser, the per-note transformations and the reconciliation
checks, together with theorems settling the specification claims.

Conventions of the embedding:
* Python lists of strings become `List String`; Python strings become
  `String` (a structure holding `data : List Char`), and all string
  primitives used by the source (`in`, `replace`, `strip`, `split`,
  `startswith`, `endswith`) are modelled by executable functions on the
  underlying character lists, written below with a `py` prefix.
* Machine integers/counters become `Int` or `Nat`; the float arithmetic of
  the backoff computation is modelled over `ℚ` (exact arithmetic).
* Filesystem state becomes an explicit association list from paths to file
  contents; `time.sleep`, logging and the notification webhook are effects
  outside the properties claimed and are noted in doc comments.
-/

/-- Python whitespace characters recognised by `str.strip()` (ASCII range,
which is the only range exercised by the source's data). -/
def isPySpace (c : Char) : Bool :=
  c == ' ' || c == '\t' || c == '\n' || c == '\r' || c == '\x0b' || c == '\x0c'

/-- Characters of a string with leading and trailing Python whitespace
removed: the character-list model of Python `str.strip()`. -/
def stripChars (l : List Char) : List Char :=
  ((l.dropWhile isPySpace).reverse.dropWhile isPySpace).reverse

/-- Python `s.endswith(pat)`. -/
def pyEndsWith (s pat : String) : Bool :=
  pat.data.isSuffixOf s.data

/-- Does `pat` occur as a contiguous sublist of `l` (at any position,
including the position at the very end)?  Recursive model of Python's
substring test `pat in s`. -/
def hasSub (pat : List Char) : List Char → Bool
  | [] => pat.isPrefixOf []
  | c :: rest => pat.isPrefixOf (c :: rest) || hasSub pat rest

/-- Python `pat in s` (substring containment). -/
def pyContains (s pat : String) : Bool :=
  hasSub pat.data s.data

/-- Worker for the character-list model of Python `s.replace(pat, repl)`:
the `Nat` argument counts characters still to be discarded because they were
consumed as the tail of a replaced occurrence.  Structural recursion on the
character list keeps the definition kernel-reducible. -/
def listReplaceAux (pat repl : List Char) : Nat → List Char → List Char
  | _, [] => []
  | 0, c :: rest =>
    if pat.isPrefixOf (c :: rest) && !pat.isEmpty then
      repl ++ listReplaceAux pat repl (pat.length - 1) rest
    else
      c :: listReplaceAux pat repl 0 rest
  | k + 1, _ :: rest => listReplaceAux pat repl k rest

/-- Character-list model of Python `s.replace(pat, repl)` for a non-empty
pattern: scan left to right, replace each leftmost non-overlapping
occurrence, and continue after the replaced segment.  (Python's behaviour
for the empty pattern — inserting `repl` at every boundary — is not
modelled; every call site in the source passes a non-empty pattern.) -/
def listReplace (pat repl : List Char) (l : List Char) : List Char :=
  listReplaceAux pat repl 0 l

/-- Python `s.replace(pat, repl)` (all occurrences, leftmost first). -/
def pyReplace (s pat repl : String) : String :=
  ⟨listReplace pat.data repl.data s.data⟩

theorem listReplaceAux_skip (pat repl : List Char) :
    ∀ (l : List Char) (k : Nat),
      listReplaceAux pat repl k l = listReplaceAux pat repl 0 (l.drop k) := by
  intro l
  induction l with
  | nil => intro k; cases k <;> rfl
  | cons c rest ih =>
    intro k
    cases k with
    | zero => rfl
    | succ k => simpa [listReplaceAux] using ih k

theorem listReplace_nil (pat repl : List Char) : listReplace pat repl [] = [] := rfl

theorem listReplace_cons (pat repl : List Char) (c : Char) (rest : List Char) :
    listReplace pat repl (c :: rest) =
      if pat.isPrefixOf (c :: rest) && !pat.isEmpty then
        repl ++ listReplace pat repl (rest.drop (pat.length - 1))
      else
        c :: listReplace pat repl rest := by
  show listReplaceAux pat repl 0 (c :: rest) = _
  rw [listReplaceAux]
  rw [listReplaceAux_skip]
  rfl

/-- Split a character list on a separator character; the result always has
at least one (possibly empty) piece, exactly like Python `str.split(sep)`
with a one-character separator. -/
def splitChar (sep : Char) : List Char → List (List Char)
  | [] => [[]]
  | c :: rest =>
    if c == sep then [] :: splitChar sep rest
    else
      match splitChar sep rest with
      | [] => [[c]]
      | h :: t => (c :: h) :: t

/-- Python `s.split(sep)` for a one-character separator (the source only
splits on `","`, `":"` and `"\n"`). -/
def pySplit (s : String) (sep : Char) : List String :=
  (splitChar sep s.data).map (fun cs => ⟨cs⟩)

/-! ### Basic lemmas about the string primitives -/

/-- Loop body of `_split_notes`: `outputNotes` is the accumulated
`output_notes`, `note` the in-progress note, `hs`/`he` the two flags. -/
def split_notes_go (outputNotes : List (List String)) (note : List String)
    (hs he : Bool) : List String → List (List String)
  | [] => outputNotes ++ [note]
  | line :: rest =>
    if pyEndsWith line "-+" && hs && he then
      split_notes_go (outputNotes ++ [note]) [line] true false rest
    else
      if pyEndsWith line "-+" && !hs then
        split_notes_go outputNotes (note ++ [line]) true he rest
      else if pyEndsWith line "-+" && hs && !he then
        split_notes_go outputNotes (note ++ [line]) hs true rest
      else
        split_notes_go outputNotes (note ++ [line]) hs he rest

/-- `_split_notes`: partition the input lines into notes, using lines that
end with the rule token `"-+"` as delimiters. -/
def split_notes (inputLines : List String) : List (List String) :=
  split_notes_go [] [] false false inputLines

theorem split_notes_go_flatten (rest : List String) :
    ∀ (outputNotes : List (List String)) (note : List String) (hs he : Bool),
      (split_notes_go outputNotes note hs he rest).flatten =
        outputNotes.flatten ++ note ++ rest := by
  induction rest with
  | nil => intro o n hs he; simp [split_notes_go]
  | cons line rest ih =>
    intro o n hs he
    simp only [split_notes_go]
    by_cases h1 : (pyEndsWith line "-+" && hs && he) = true
    · simp only [h1, if_true, ih]
      simp
    · simp only [Bool.not_eq_true] at h1
      simp only [h1, Bool.false_eq_true, if_false]
      by_cases h2 : (pyEndsWith line "-+" && !hs) = true
      · simp [h2, ih]
      · simp only [Bool.not_eq_true] at h2
        simp only [h2, Bool.false_eq_true, if_false]
        by_cases h3 : (pyEndsWith line "-+" && hs && !he) = true
        · simp [h3, ih]
        · simp only [Bool.not_eq_true] at h3
          simp [h3, ih]

/-- C1: Splitter round trip — for every list of input lines, concatenating,
in order, the lines of all notes returned by `_split_notes` yields the
original input line list exactly: no line is lost, duplicated or reordered,
whatever the number of delimiter (rule-token-terminated) lines. -/
theorem split_notes_round_trip (inputLines : List String) :
    (split_notes inputLines).flatten = inputLines := by
  simpa using split_notes_go_flatten inputLines [] [] false false

/-! ### `_ensure_num_parsed_notes_matches_outputted_notes` (lines 337-362)

The post-batch reconciliation check.  In the source the fatal branch prints,
sends a Gotify notification and calls `sys.exit(1)`; the debug branch sends
a success notification; the remaining branch only prints.  The embedding
records which branch is taken. -/

/-- Outcome of the reconciliation check: `fatalExit` is the branch that
notifies and exits with status 1; `debugNotify` the DEBUG success
notification; `quiet` the plain success print. -/
inductive CheckOutcome where
  | fatalExit
  | debugNotify
  | quiet
deriving DecidableEq, Repr

/-- `_ensure_num_parsed_notes_matches_outputted_notes`: `debug` models
`os.environ.get("DEBUG") == "True"`; the counters are the four `int`
arguments of the source function. -/
def ensure_num_parsed_notes_matches_outputted_notes (debug : Bool)
    (notesInputCounter notesOutputCounter startCounter endCounter : Int) : CheckOutcome :=
  if notesInputCounter ≠ notesOutputCounter ∨ endCounter < startCounter then
    .fatalExit
  else if debug then
    .debugNotify
  else
    .quiet

/-- C3: Reconciliation check — the post-batch check is fatal (notification
plus non-zero exit) exactly when the input note count after
continuous-expansion differs from the count of notes written this run, or
the ending output-directory file count is strictly below the starting
count; when the counts agree and the end count is at least the start count,
the run is not aborted. -/
theorem ensure_counts_fatal_iff (debug : Bool)
    (notesInputCounter notesOutputCounter startCounter endCounter : Int) :
    ensure_num_parsed_notes_matches_outputted_notes debug
        notesInputCounter notesOutputCounter startCounter endCounter = .fatalExit ↔
      (notesInputCounter ≠ notesOutputCounter ∨ endCounter < startCounter) := by
  unfold ensure_num_parsed_notes_matches_outputted_notes
  by_cases h : notesInputCounter ≠ notesOutputCounter ∨ endCounter < startCounter
  · simp [h]
  · cases debug <;> simp [h]

/-! ### `_exponential_backoff_delay` (lines 27-49)

Float arithmetic modelled over `ℚ`; the jitter's `random.random()` outcome
(a float in `[0, 1)`) is passed in as the parameter `r`. -/

/-- `_exponential_backoff_delay`: `delay = base_delay * 2 ** attempt`,
capped at `max_delay`, plus jitter `delay * 0.25 * (2 * r - 1)`, floored at
`0.1`. -/
def exponential_backoff_delay (attempt : Nat) (baseDelay maxDelay r : ℚ) : ℚ :=
  let delay := baseDelay * 2 ^ attempt
  let capped := min delay maxDelay
  let jitter := capped * (1 / 4) * (2 * r - 1)
  max (1 / 10) (capped + jitter)

/-- C5: with the source's own test configuration (`base_delay = 1.0`,
`max_delay = 10.0`, see `test_exponential_backoff_delay_basic`) and jitter
outcome `random() = 0.9`, attempt 4 yields a delay of `12`, strictly above
the configured maximum delay `10`: positive jitter is added after the cap,
so the claimed bound `delay ≤ max_delay` fails. -/
theorem exponential_backoff_delay_exceeds_max :
    exponential_backoff_delay 4 1 10 (9 / 10) = 12 ∧
      (10 : ℚ) < exponential_backoff_delay 4 1 10 (9 / 10) := by
  constructor <;> norm_num [exponential_backoff_delay, min_def, max_def]

/-! ### `_write_note_file` (lines 292-334)

The filesystem is modelled as an association list from paths to whole-file
contents; `List.lookup` is the read, `fsSet` the write.  The embedding
returns the filesystem after the call together with a flag telling whether
a physical write was performed (the source's `open(file_path, "w")` branch;
the identical-content branch returns without writing).  The source's fatal
I/O-exception branch (alert and `SystemExit`) is an effect outside the
idempotence claim. -/

/-- Association-list filesystem: path ↦ file content. -/
abbrev FileSystem := List (String × String)

/-- Overwrite-or-create a binding in the filesystem. -/
def fsSet : FileSystem → String → String → FileSystem
  | [], p, c => [(p, c)]
  | (q, d) :: rest, p, c =>
    if q = p then (p, c) :: rest else (q, d) :: fsSet rest p c

/-- `_write_note_file`: joins the markdown lines (`"".join(output_markdown)`),
compares with any existing file at `{output_dir}/{output_filename}`, skips
the write when the content is byte-identical and overwrites otherwise.
Returns (filesystem afterwards, whether a physical write happened). -/
def write_note_file (fs : FileSystem) (outputMarkdown : List String)
    (outputDir outputFilename : String) : FileSystem × Bool :=
  let filePath := outputDir ++ "/" ++ outputFilename
  let newContent := String.join outputMarkdown
  match fs.lookup filePath with
  | some existing =>
    if existing = newContent then (fs, false) else (fsSet fs filePath newContent, true)
  | none => (fsSet fs filePath newContent, true)

theorem fsSet_lookup_self (fs : FileSystem) (p c : String) :
    (fsSet fs p c).lookup p = some c := by
  induction fs with
  | nil => simp [fsSet, List.lookup]
  | cons e rest ih =>
    obtain ⟨q, d⟩ := e
    by_cases h : q = p
    · simp [fsSet, h, List.lookup]
    · simp only [fsSet, h, if_false]
      rw [List.lookup]
      have : (p == q) = false := by simp [Ne.symm h]
      simp [this, ih]

theorem fsSet_lookup_ne (fs : FileSystem) (p c q : String) (h : q ≠ p) :
    (fsSet fs p c).lookup q = fs.lookup q := by
  have hb : (q == p) = false := beq_eq_false_iff_ne.mpr h
  induction fs with
  | nil => simp [fsSet, List.lookup, hb]
  | cons e rest ih =>
    obtain ⟨q', d⟩ := e
    by_cases h' : q' = p
    · subst h'
      simp [fsSet, List.lookup, show (q == q') = false by simp [h]]
    · simp only [fsSet, h', if_false]
      rw [List.lookup, List.lookup]
      cases hq : (q == q') <;> simp [ih]

/-- C9: Idempotent note write — if a byte-identical file already exists at
the target path, `_write_note_file` performs no physical write and leaves
the whole filesystem unchanged; afterwards the file always holds exactly
the candidate content while every other path is untouched; an immediately
repeated write of the same content performs no second physical write, and
the first call does write exactly when the path was absent or held
different content. -/
theorem write_note_file_idempotent (fs : FileSystem) (outputMarkdown : List String)
    (outputDir outputFilename : String) :
    (fs.lookup (outputDir ++ "/" ++ outputFilename) = some (String.join outputMarkdown) →
        write_note_file fs outputMarkdown outputDir outputFilename = (fs, false)) ∧
      (write_note_file fs outputMarkdown outputDir outputFilename).1.lookup
          (outputDir ++ "/" ++ outputFilename) = some (String.join outputMarkdown) ∧
      (∀ q, q ≠ outputDir ++ "/" ++ outputFilename →
        (write_note_file fs outputMarkdown outputDir outputFilename).1.lookup q =
          fs.lookup q) ∧
      (write_note_file (write_note_file fs outputMarkdown outputDir outputFilename).1
          outputMarkdown outputDir outputFilename).2 = false ∧
      (fs.lookup (outputDir ++ "/" ++ outputFilename) ≠ some (String.join outputMarkdown) →
        (write_note_file fs outputMarkdown outputDir outputFilename).2 = true) := by
  set p := outputDir ++ "/" ++ outputFilename with hp
  set c := String.join outputMarkdown with hc
  have hmain :
      write_note_file fs outputMarkdown outputDir outputFilename =
        match fs.lookup p with
        | some existing => if existing = c then (fs, false) else (fsSet fs p c, true)
        | none => (fsSet fs p c, true) := rfl
  have hsecond : ∀ fs' : FileSystem, fs'.lookup p = some c →
      write_note_file fs' outputMarkdown outputDir outputFilename = (fs', false) := by
    intro fs' hl'
    show (match fs'.lookup p with
      | some existing => if existing = c then (fs', false) else (fsSet fs' p c, true)
      | none => (fsSet fs' p c, true)) = _
    rw [hl']; simp
  by_cases hid : fs.lookup p = some c
  · have h1 : write_note_file fs outputMarkdown outputDir outputFilename = (fs, false) := by
      rw [hmain, hid]; simp
    refine ⟨fun _ => h1, ?_, ?_, ?_, fun hne => absurd hid hne⟩
    · rw [h1]; exact hid
    · intro q _; rw [h1]
    · rw [h1]
      show (write_note_file fs outputMarkdown outputDir outputFilename).2 = false
      rw [hsecond fs hid]
  · have h1 : write_note_file fs outputMarkdown outputDir outputFilename =
        (fsSet fs p c, true) := by
      rw [hmain]
      rcases hl : fs.lookup p with _ | existing
      · rfl
      · have hne : existing ≠ c := fun he => hid (by rw [hl, he])
        simp [hne]
    refine ⟨fun hsome => absurd hsome hid, ?_, ?_, ?_, fun _ => by rw [h1]⟩
    · rw [h1]; exact fsSet_lookup_self fs p c
    · intro q hq; rw [h1]; exact fsSet_lookup_ne fs p c q hq
    · rw [h1]
      show (write_note_file (fsSet fs p c) outputMarkdown outputDir outputFilename).2 = false
      rw [hsecond (fsSet fs p c) (fsSet_lookup_self fs p c)]

/-- Witness for C9 at a concrete filesystem: the target `out/b.md` is
absent, so the first call physically writes, and an unrelated file is left
untouched. -/
theorem write_note_file_idempotent_witness :
    (([("out/a.md", "x")] : FileSystem).lookup ("out" ++ "/" ++ "b.md") ≠
        some (String.join ["y", "z\n"])) ∧
      (write_note_file [("out/a.md", "x")] ["y", "z\n"] "out" "b.md").2 = true ∧
      (write_note_file [("out/a.md", "x")] ["y", "z\n"] "out" "b.md").1.lookup "out/a.md" =
        ([("out/a.md", "x")] : FileSystem).lookup "out/a.md" := by
  have h := write_note_file_idempotent [("out/a.md", "x")] ["y", "z\n"] "out" "b.md"
  exact ⟨by decide, h.2.2.2.2 (by decide), h.2.2.1 "out/a.md" (by decide)⟩

/-! ### Tag removal and rendering inside `_create_ssg_header` (lines 211-275)

`_create_ssg_header` is a straight-line sequence of template substitutions;
the file-template read is external, so the template text is a parameter.
The distinct substitution stages are embedded as separate functions in
source order: the unlisted-flag loop (lines 236-241), the destructive
`IGNORED_TAGS` removal loop (lines 243-249) and the `{\x7btag\x7d}` rendering
(lines 251-259).  `IGNORED_TAGS = [os.environ.get("TAG_TO_DOWNLOAD"), "blog"]`
(line 15) is passed as `[tagToDownload, "blog"]`. -/

/-- The `{\x7btag\x7d}` placeholder text of the header templates. -/
def tagPlaceholder : String := "\x7b\x7btag\x7d\x7d"

/-- The `{\x7bunlisted\x7d}` placeholder text of the header templates. -/
def unlistedPlaceholder : String := "\x7b\x7bunlisted\x7d\x7d"

/-- The `while True: tags.remove(t) / except ValueError: break` loop of
`_create_ssg_header` for a single ignored tag `t`: repeatedly removing the
first occurrence until none is left deletes every occurrence of `t`,
keeping the other elements in order. -/
def pyRemoveAll (t : String) : List String → List String
  | [] => []
  | x :: xs => if x = t then pyRemoveAll t xs else x :: pyRemoveAll t xs

/-- The `for t in IGNORED_TAGS` removal loop (lines 244-249); the result is
also the final state of the caller-supplied `tags` list object, since
`list.remove` mutates it in place. -/
def removeIgnoredTags (ignoredTags : List String) (tags : List String) : List String :=
  ignoredTags.foldl (fun ts t => pyRemoveAll t ts) tags

/-- The `{\x7btag\x7d}` rendering (lines 251-259): `Uncategorized` for an
empty list, the bare tag for a singleton, and otherwise the first tag
followed by each remaining tag on its own `"  - "`-prefixed line.  The
source's separate `if len == 0` statement followed by the
`if len == 1 / elif len > 1` chain is kept as-is. -/
def renderTagField (tags : List String) (template : String) : String :=
  let t1 := if tags.length = 0 then pyReplace template tagPlaceholder "Uncategorized"
    else template
  if tags.length = 1 then pyReplace t1 tagPlaceholder (tags.getD 0 "")
  else if tags.length > 1 then
    pyReplace t1 tagPlaceholder
      (tags.getD 0 "" ++ "\n" ++
        String.intercalate "\n" ((tags.drop 1).map (fun tag => "  - " ++ tag)))
  else t1

/-- Tag stage of `_create_ssg_header`: removal of the ignored tags followed
by the `{\x7btag\x7d}` rendering. -/
def create_ssg_header_tag_stage (tagToDownload : String) (tags : List String)
    (template : String) : String :=
  renderTagField (removeIgnoredTags [tagToDownload, "blog"] tags) template

/-- The unlisted-flag loop of `_create_ssg_header` (lines 236-241): for each
configured unlisted tag in order, replace `{\x7bunlisted\x7d}` by `"true"`
if that tag is in the note's tag list and by `"false"` otherwise. -/
def renderUnlistedField (unlistedTags tags : List String) (template : String) : String :=
  unlistedTags.foldl
    (fun tpl t =>
      if t ∈ tags then pyReplace tpl unlistedPlaceholder "true"
      else pyReplace tpl unlistedPlaceholder "false")
    template

theorem pyRemoveAll_eq_filter (t : String) (l : List String) :
    pyRemoveAll t l = l.filter (fun x => !(x == t)) := by
  induction l with
  | nil => rfl
  | cons x xs ih =>
    by_cases h : x = t
    · simp [pyRemoveAll, h, ih]
    · simp [pyRemoveAll, h, ih]

theorem mem_of_mem_pyRemoveAll {x t : String} {l : List String}
    (h : x ∈ pyRemoveAll t l) : x ∈ l := by
  rw [pyRemoveAll_eq_filter] at h
  exact List.mem_of_mem_filter h

theorem not_mem_pyRemoveAll (t : String) (l : List String) : t ∉ pyRemoveAll t l := by
  rw [pyRemoveAll_eq_filter]
  intro h
  have := List.of_mem_filter h
  simp at this

/-- C10: Implicit side effect of header synthesis — the `IGNORED_TAGS`
removal loop of `_create_ssg_header` runs `tags.remove` on the caller's
list object, so after the call (`_process_note`, lines 613-618) the
caller's tag list — whose final state `removeIgnoredTags` computes —
contains no occurrence of the download-scope tag and none of the constant
tag `"blog"`. -/
theorem create_ssg_header_final_tags (tagToDownload : String) (tags : List String) :
    tagToDownload ∉ removeIgnoredTags [tagToDownload, "blog"] tags ∧
      "blog" ∉ removeIgnoredTags [tagToDownload, "blog"] tags := by
  have hfold : removeIgnoredTags [tagToDownload, "blog"] tags =
      pyRemoveAll "blog" (pyRemoveAll tagToDownload tags) := rfl
  constructor
  · rw [hfold]
    intro h
    exact not_mem_pyRemoveAll tagToDownload tags (mem_of_mem_pyRemoveAll h)
  · rw [hfold]
    exact not_mem_pyRemoveAll "blog" (pyRemoveAll tagToDownload tags)

/-- C7: Tag filtering and rendering — the removal of the download-scope tag
and the constant tag `"blog"` is exhaustive and order-preserving (it equals
an order-preserving filter), and the `{\x7btag\x7d}` placeholder is then
rendered as `"Uncategorized"` when no tag remains, as the bare tag when one
remains, and otherwise as the first remaining tag followed by each further
tag on its own `"  - "`-prefixed line, in first-found order. -/
theorem create_ssg_header_tag_rendering (tagToDownload : String) (tags : List String)
    (template : String) :
    removeIgnoredTags [tagToDownload, "blog"] tags =
        tags.filter (fun x => !(x == tagToDownload) && !(x == "blog")) ∧
      create_ssg_header_tag_stage tagToDownload tags template =
        pyReplace template tagPlaceholder
          (match tags.filter (fun x => !(x == tagToDownload) && !(x == "blog")) with
            | [] => "Uncategorized"
            | [t] => t
            | t :: rest =>
              t ++ "\n" ++ String.intercalate "\n" (rest.map (fun tag => "  - " ++ tag))) := by
  have hfold : removeIgnoredTags [tagToDownload, "blog"] tags =
      pyRemoveAll "blog" (pyRemoveAll tagToDownload tags) := rfl
  have hfilter : removeIgnoredTags [tagToDownload, "blog"] tags =
      tags.filter (fun x => !(x == tagToDownload) && !(x == "blog")) := by
    rw [hfold, pyRemoveAll_eq_filter, pyRemoveAll_eq_filter, List.filter_filter]
    apply List.filter_congr
    intro x _
    cases hx : (x == tagToDownload) <;> cases hy : (x == "blog") <;> simp [hx, hy]
  refine ⟨hfilter, ?_⟩
  show renderTagField (removeIgnoredTags [tagToDownload, "blog"] tags) template = _
  rw [hfilter]
  rcases hsplit : tags.filter (fun x => !(x == tagToDownload) && !(x == "blog")) with
    _ | ⟨t, _ | ⟨u, rest⟩⟩
  · simp [renderTagField]
  · simp [renderTagField]
  · simp [renderTagField]

/-- C6: with more than one configured unlisted tag, only the first
iteration of the unlisted loop still finds the `{\x7bunlisted\x7d}`
placeholder: here the note's tag list contains the unlisted tag `"beta"`
(so the claim demands `"true"`), yet the rendered header says `"false"`,
because the first loop iteration for `"alpha"` already consumed the
placeholder.  This contradicts the source's own comment
`Set unlisted to "true" for any note containing an UNLISTED_TAGS`. -/
theorem render_unlisted_ignores_later_tags :
    renderUnlistedField ["alpha", "beta"] ["beta"] ("unlisted: " ++ unlistedPlaceholder) =
        "unlisted: false" ∧
      "beta" ∈ (["alpha", "beta"] : List String) := by
  constructor
  · decide
  · decide

/-! ### The header-line pattern `SN_HEADER_PATTERN` (line 14)

`re.match(r"^\|\s*(.*?):\s*(.*?)\s*\|", line)` anchored at the start of the
line: the line must begin with `|`, with lazy groups the key group is the
text up to the first `:`, and the value group is the text after that first
`:` up to the next `|` (which must exist); both are then `.strip()`-ed by
the callers (`_gather_header_info` line 89-90, `_adjust_note_header_title`
line 543-544), so the embedding returns the stripped groups directly. -/

/-- Character-list worker for the `SN_HEADER_PATTERN` match. -/
def snHeaderMatchChars : List Char → Option (String × String)
  | '|' :: rest =>
    match rest.dropWhile (fun c => !(c == ':')) with
    | ':' :: afterColon =>
      if afterColon.any (fun c => c == '|') then
        some (⟨stripChars (rest.takeWhile (fun c => !(c == ':')))⟩,
          ⟨stripChars (afterColon.takeWhile (fun c => !(c == '|')))⟩)
      else none
    | _ => none
  | _ => none

/-- Match a line against `SN_HEADER_PATTERN`, returning the stripped key
and value groups, or `none` when the regex does not match. -/
def snHeaderMatch (line : String) : Option (String × String) :=
  snHeaderMatchChars line.data

/-! ### `_gather_header_info` (lines 75-98)

Every call site passes `SN_HEADER_PATTERN` as the pattern argument, so the
embedding fixes that pattern.  The loop keeps the accumulator
`(title, date, tags)`; a `Title` line overwrites the title with the value
with every `"#"` removed, a `Date` line overwrites the date verbatim, a
`Tags` line appends the comma-split pieces (untrimmed), and any other line
leaves the accumulator unchanged. -/

/-- Loop body of `_gather_header_info`. -/
def gather_step (acc : String × String × List String) (line : String) :
    String × String × List String :=
  match snHeaderMatch line with
  | some (key, value) =>
    if key = "Title" then (pyReplace value "#" "", acc.2.1, acc.2.2)
    else if key = "Date" then (acc.1, value, acc.2.2)
    else if key = "Tags" then (acc.1, acc.2.1, acc.2.2 ++ pySplit value ',')
    else acc
  | none => acc

/-- `_gather_header_info` with the pattern fixed to `SN_HEADER_PATTERN`. -/
def gather_header_info (note : List String) : String × String × List String :=
  note.foldl gather_step ("", "", [])

/-- The `Title` value a line contributes, if any. -/
def titleFieldOf (line : String) : Option String :=
  match snHeaderMatch line with
  | some (k, v) => if k = "Title" then some v else none
  | none => none

/-- The `Date` value a line contributes, if any. -/
def dateFieldOf (line : String) : Option String :=
  match snHeaderMatch line with
  | some (k, v) => if k = "Date" then some v else none
  | none => none

/-- The tag-list pieces a line contributes (comma-split, untrimmed). -/
def tagsFieldsOf (line : String) : List String :=
  match snHeaderMatch line with
  | some (k, v) => if k = "Tags" then pySplit v ',' else []
  | none => []

theorem findSome_append {α β : Type} (f : α → Option β) (l1 l2 : List α) :
    (l1 ++ l2).findSome? f =
      match l1.findSome? f with
      | some b => some b
      | none => l2.findSome? f := by
  induction l1 with
  | nil => simp
  | cons x xs ih =>
    simp only [List.cons_append, List.findSome?]
    cases f x <;> simp [ih]

theorem removeHash_eq_filter (v : String) :
    pyReplace v "#" "" = ⟨v.data.filter (fun c => !(c == '#'))⟩ := by
  show (⟨listReplace ['#'] [] v.data⟩ : String) = _
  congr 1
  induction v.data with
  | nil => rfl
  | cons c rest ih =>
    rw [listReplace_cons]
    by_cases h : c = '#'
    · subst h
      simp [List.isPrefixOf, ih]
    · have hb : ('#' == c) = false := by simp [Ne.symm h]
      simp [List.isPrefixOf, hb, ih, h]

theorem gather_fold_title (note : List String) :
    ∀ acc : String × String × List String,
      (note.foldl gather_step acc).1 =
        match note.reverse.findSome? titleFieldOf with
        | some v => pyReplace v "#" ""
        | none => acc.1 := by
  induction note with
  | nil => intro acc; simp
  | cons l ls ih =>
    intro acc
    simp only [List.foldl_cons, List.reverse_cons, findSome_append, ih]
    rcases hrev : ls.reverse.findSome? titleFieldOf with _ | v
    · simp only [List.findSome?, Option.orElse]
      unfold titleFieldOf gather_step
      rcases hm : snHeaderMatch l with _ | ⟨k, v⟩
      · simp
      · by_cases hk : k = "Title"
        · simp [hk]
        · by_cases hd : k = "Date" <;> by_cases ht : k = "Tags" <;> simp [hk, hd, ht]
    · simp

theorem gather_fold_date (note : List String) :
    ∀ acc : String × String × List String,
      (note.foldl gather_step acc).2.1 =
        match note.reverse.findSome? dateFieldOf with
        | some v => v
        | none => acc.2.1 := by
  induction note with
  | nil => intro acc; simp
  | cons l ls ih =>
    intro acc
    simp only [List.foldl_cons, List.reverse_cons, findSome_append, ih]
    rcases hrev : ls.reverse.findSome? dateFieldOf with _ | v
    · simp only [List.findSome?, Option.orElse]
      unfold dateFieldOf gather_step
      rcases hm : snHeaderMatch l with _ | ⟨k, v⟩
      · simp
      · by_cases hk : k = "Title"
        · simp [hk]
        · by_cases hd : k = "Date" <;> by_cases ht : k = "Tags" <;> simp [hk, hd, ht]
    · simp

theorem gather_fold_tags (note : List String) :
    ∀ acc : String × String × List String,
      (note.foldl gather_step acc).2.2 = acc.2.2 ++ note.flatMap tagsFieldsOf := by
  induction note with
  | nil => intro acc; simp
  | cons l ls ih =>
    intro acc
    simp only [List.foldl_cons, List.flatMap_cons, ih]
    have hstep : (gather_step acc l).2.2 = acc.2.2 ++ tagsFieldsOf l := by
      unfold gather_step tagsFieldsOf
      rcases hm : snHeaderMatch l with _ | ⟨k, v⟩
      · simp
      · by_cases hk : k = "Title"
        · simp [hk]
        · by_cases hd : k = "Date" <;> by_cases ht : k = "Tags" <;> simp [hk, hd, ht]
    rw [hstep, List.append_assoc]

/-- C8 (amended): Header field extraction — each line is matched against the
header pattern; the title is the value of the last `Title` line with every
`"#"` character removed (wherever it occurs, not only leading ones), the
date is the value of the last `Date` line taken verbatim, the tags are the
concatenation, in order, of the comma-split (untrimmed) values of all
`Tags` lines, non-matching lines are ignored, and a note with no `Title`
line yields the empty string as title (likewise for `Date`). -/
theorem gather_header_info_spec (note : List String) :
    gather_header_info note =
      ( (match note.reverse.findSome? titleFieldOf with
          | some v => ⟨v.data.filter (fun c => !(c == '#'))⟩
          | none => ""),
        (match note.reverse.findSome? dateFieldOf with
          | some v => v
          | none => ""),
        note.flatMap tagsFieldsOf ) := by
  have h1 := gather_fold_title note ("", "", [])
  have h2 := gather_fold_date note ("", "", [])
  have h3 := gather_fold_tags note ("", "", [])
  unfold gather_header_info
  refine Prod.ext ?_ (Prod.ext ?_ ?_)
  · rw [h1]
    rcases note.reverse.findSome? titleFieldOf with _ | v
    · rfl
    · exact removeHash_eq_filter v
  · rw [h2]
  · rw [h3]; rfl

/-- C8 counterexample: for the note `["| Title: C# note |"]` the code
removes the interior `"#"` as well, producing title `"C note"`, while the
claim (strip only leading markup markers) would keep `"C# note"`. -/
theorem gather_header_info_interior_hash :
    gather_header_info ["| Title: C# note |"] = ("C note", "", ([] : List String)) ∧
      ("C note" : String) ≠ "C# note" := by
  constructor
  · decide
  · decide

/-! ### `_trash_sncli_log` (lines 52-72) and the validation pass inside
`_validate_dumped_notes_have_tag_to_download_with_backoff` (lines 424-455)

`_trash_sncli_log` receives the whole file content, splits it on newlines
and keeps the lines whose text contains none of five sncli log markers (the
`"" in s` conjunct of the source's lambda is always true and is kept
verbatim).  One validation pass then counts the lines containing both `"|"`
and `"Tags:"`, breaking with a failure at the first such line that does not
contain the scope tag, and additionally fails when no such line was found
at all.  The retry/re-dump machinery around the pass consumes the shared
backoff budget and is outside this claim. -/

/-- The sncli log markers removed by `_trash_sncli_log`. -/
def logEntriesToRemove : List String :=
  ["sncli database doesn't exist",
   "Starting full sync",
   "Synced new note from server",
   "Saved note to disk",
   "Full sync completed"]

/-- `_trash_sncli_log`. -/
def trash_sncli_log (inputLines : String) : List String :=
  (pySplit inputLines '\n').filter
    (fun s => pyContains s "" && !(logEntriesToRemove.any (fun x => pyContains s x)))

/-- Is this a Tags-bearing header line in the sense of the validation scan
(`"|" in line and "Tags:" in line`)? -/
def isTagsLine (line : String) : Bool :=
  pyContains line "|" && pyContains line "Tags:"

/-- The validation `for line in input_lines` loop with its `break`: returns
the final `found_tags_lines` counter and the `validation_failed` flag as
set by the loop body alone. -/
def validateLoop (tagToDownload : String) : List String → Nat → Nat × Bool
  | [], found => (found, false)
  | line :: rest, found =>
    if isTagsLine line then
      if !(pyContains line tagToDownload) then (found + 1, true)
      else validateLoop tagToDownload rest (found + 1)
    else
      validateLoop tagToDownload rest found

/-- One full validation pass over the fetched text: noise-strip, scan,
then fail when the loop flagged a failure or when no Tags-bearing line was
found (`found_tags_lines < 1`); `true` means the pass succeeds (the source
returns `True` at line 455). -/
def validate_pass (tagToDownload : String) (inputContent : String) : Bool :=
  let r := validateLoop tagToDownload (trash_sncli_log inputContent) 0
  !(r.2 || decide (r.1 < 1))

theorem validateLoop_failed (tagToDownload : String) (lines : List String) :
    ∀ found : Nat,
      (validateLoop tagToDownload lines found).2 =
        lines.any (fun l => isTagsLine l && !(pyContains l tagToDownload)) := by
  induction lines with
  | nil => intro found; simp [validateLoop]
  | cons line rest ih =>
    intro found
    by_cases ht : isTagsLine line
    · by_cases hc : pyContains line tagToDownload
      · simp [validateLoop, ht, hc, ih]
      · simp only [Bool.not_eq_true] at hc
        simp [validateLoop, ht, hc]
    · simp only [Bool.not_eq_true] at ht
      simp [validateLoop, ht, ih]

theorem validateLoop_found_zero (tagToDownload : String) (lines : List String) :
    ∀ found : Nat,
      (validateLoop tagToDownload lines found).1 = 0 ↔
        (found = 0 ∧ lines.any isTagsLine = false) := by
  induction lines with
  | nil => intro found; simp [validateLoop]
  | cons line rest ih =>
    intro found
    by_cases ht : isTagsLine line
    · by_cases hc : pyContains line tagToDownload
      · simp [validateLoop, ht, hc, ih]
      · simp only [Bool.not_eq_true] at hc
        simp [validateLoop, ht, hc]
    · simp only [Bool.not_eq_true] at ht
      simp [validateLoop, ht, ih]

theorem all_not_any (tagToDownload : String) (lines : List String) :
    (lines.all (fun l => !(isTagsLine l) || pyContains l tagToDownload)) =
      !(lines.any (fun l => isTagsLine l && !(pyContains l tagToDownload))) := by
  induction lines with
  | nil => rfl
  | cons line rest ih =>
    simp only [List.all_cons, List.any_cons, ih, Bool.not_or]
    cases isTagsLine line <;> cases pyContains line tagToDownload <;> simp

/-- C4: Validation predicate — a single validation pass over a fetched text
succeeds exactly when the noise-stripped input has at least one
Tags-bearing header line and every Tags-bearing header line contains the
required download-scope tag; it fails exactly when zero Tags-bearing lines
exist or at least one of them lacks the tag. -/
theorem validate_pass_iff (tagToDownload inputContent : String) :
    validate_pass tagToDownload inputContent =
      ((trash_sncli_log inputContent).any isTagsLine &&
        (trash_sncli_log inputContent).all
          (fun line => !(isTagsLine line) || pyContains line tagToDownload)) := by
  unfold validate_pass
  set lines := trash_sncli_log inputContent with hl
  rw [all_not_any]
  have hf := validateLoop_failed tagToDownload lines 0
  have hz := validateLoop_found_zero tagToDownload lines 0
  rcases hr : validateLoop tagToDownload lines 0 with ⟨found, failed⟩
  rw [hr] at hf hz
  simp only at hf hz
  subst hf
  by_cases hBad : lines.any (fun l => isTagsLine l && !(pyContains l tagToDownload)) = true
  · simp [hBad]
  · rw [Bool.not_eq_true] at hBad
    by_cases hAny : lines.any isTagsLine = true
    · have h0 : found ≠ 0 := fun h => by simpa [hAny] using (hz.mp h).2
      have hd : decide (found < 1) = false := by simp [Nat.lt_one_iff, h0]
      simp [hBad, hAny, hd]
      exact h0
    · rw [Bool.not_eq_true] at hAny
      have h0 : found = 0 := hz.mpr ⟨trivial, hAny⟩
      simp [hBad, hAny, h0]

/-! ### `_split_continuous_note` (lines 575-603) and its helpers

`_get_note_header` (lines 518-527) filters the lines that look like header
lines; `_remove_tag_from_note_header` (lines 555-572) replaces the
continuous tag by its replacement in every line containing it;
`_adjust_note_header_title` (lines 530-552) appends a suffix to the Title
value via `re.sub(value, value + title_addition, line)`, which treats the
title text as a regex pattern: for title text free of regex metacharacters
(see `isRegexMeta`) `re.sub` coincides with literal replace-all, which is
how the embedding models it, and the C2 theorem carries that freeness as a
hypothesis; for titles with metacharacters the code substitutes at
unintended places (title `a*b` turns `| Title: a*b |` into
`| Title: a*a*b - 1 |`) or raises `re.error` (title `C++ notes`), neither
of which the literal model covers.  `_split_continuous_note` then walks the body
(`note[len(cnote_header) + 1:]`), skipping the blank separator lines, and
emits one note per non-blank line, numbering down from the count of
non-blank body lines. -/

